import Mathlib

/-!
Verification development for the `echo-openapi` middleware (Go).

The repository ships two generations of its two implementation files; the
current generation is the one its test suite and README are written against:
`OpenAPIWithConfig` loads, validates and compiles the schema once at
construction time (panicking on failure), `convertError` keys schema errors
by their dot-joined JSON pointer, truncates parameter causes to their first
line, and collects request-body errors under the distinguished key `body`
which the middleware reports at HTTP 400.  The definitions below are a
shallow embedding of that current generation; external collaborators
(kin-openapi's loader/validator/router and Echo's context, response writer
and default HTTP error handler) are modelled as explicit black-box
parameters or as the small data types they hand to the code under study.
-/

namespace EchoOpenAPI

/-- A parameter reference as carried by `openapi3filter.RequestError`
(`err.Parameter`): the parameter's `Name` and its `In` location
(one of `path`, `query`, `header`, `cookie`). -/
structure Param where
  name : String
  loc : String
deriving DecidableEq, Repr

/-- The raw error tree handed to `convertError` by the external kin-openapi
validator, covering exactly the dynamic types the Go type switch
distinguishes: `*openapi3.SchemaError` (its `JSONPointer()` and `Reason`,
plus the full rendered `Error()` text as `detail`),
`*openapi3filter.RequestError` (optional `Parameter`, whether `RequestBody`
is non-nil, `Reason`, and the wrapped `Err` as `cause`),
`openapi3.MultiError`, and any other error (`otherErr`, carrying its
`Error()` text). -/
inductive GoErr where
  | schemaError (jsonPointer : List String) (reason : String) (detail : String)
  | requestError (parameter : Option Param) (hasRequestBody : Bool) (reason : String)
      (cause : Option GoErr)
  | multiError (errs : List GoErr)
  | otherErr (text : String)

/-- An apostrophe character (used by the Go code as the replacement for a
double quote). -/
def squote : Char := Char.ofNat 39

mutual
/-- The Go `error.Error()` text of a raw error, following the external
library's implementations: `RequestError.Error()` composes `Reason` and the
wrapped error's text and prepends a `parameter %q in %s has an error:` or
`request body has an error:` header, `MultiError.Error()` joins the member
texts with `" | "`; a `SchemaError`'s rendered text is carried verbatim in
its `detail` field. -/
def errText : GoErr → String
  | .schemaError _ _ detail => detail
  | .requestError p hasBody reason cause =>
    let r := match cause with
      | none => reason
      | some c => if reason = "" then errText c else reason ++ ": " ++ errText c
    match p with
    | some param => "parameter \"" ++ param.name ++ "\" in " ++ param.loc ++ " has an error: " ++ r
    | none => if hasBody then "request body has an error: " ++ r else r
  | .multiError errs => String.intercalate " | " (errTextList errs)
  | .otherErr t => t

/-- Pointwise `errText` over a list of raw errors. -/
def errTextList : List GoErr → List String
  | [] => []
  | e :: rest => errText e :: errTextList rest
end

/-- The `issues` accumulator of `convertError`: Go's `map[string][]string`,
represented as an association list with unique keys in first-insertion
order (a Go map is enumeration-order nondeterministic; the pipeline
neutralises that by sorting the keys before use, which is proved below). -/
abbrev Issues := List (String × List String)

/-- Go's `issues[k] = append(issues[k], msgs...)`: extend the bucket of an
existing key, or create the key. -/
def appendIssue : Issues → String → List String → Issues
  | [], k, msgs => [(k, msgs)]
  | (k', v) :: rest, k, msgs =>
    if k' = k then (k', v ++ msgs) :: rest else (k', v) :: appendIssue rest k msgs

/-- Go's comma-ok map read `val, ok := issues[k]`. -/
def findIssues : Issues → String → Option (List String)
  | [], _ => none
  | (k', v) :: rest, k => if k' = k then some v else findIssues rest k

/-- Go's `for k, v := range sub { issues[k] = append(issues[k], v...) }`
(the per-key result of merging is independent of the enumeration order of
`sub` because keys in `sub` are unique). -/
def mergeIssues (acc sub : Issues) : Issues :=
  sub.foldl (fun a kv => appendIssue a kv.1 kv.2) acc

/-- Go's `strings.ReplaceAll(msg, "\x22", "'")` for the one-character
pattern: replace every double-quote character by a single quote. -/
def replaceQuotes (s : String) : String :=
  String.mk (s.data.map fun ch => if ch = '"' then squote else ch)

/-- Go's `strings.Split(s, "\n")[0]`: the prefix of `s` before its first
newline. -/
def firstLine (s : String) : String :=
  String.mk (s.data.takeWhile fun ch => ch ≠ '\n')

mutual
/-- The loop body of `convertError` applied over a list of raw errors,
threading the `issues` accumulator. -/
def convertFold (acc : Issues) : List GoErr → Issues
  | [] => acc
  | e :: rest => convertFold (convertOne acc e) rest

/-- One iteration of `convertError`'s type switch (current generation of
`openapi.go`): a `SchemaError` is keyed by the dot-joined JSON pointer with
a field-prefixed, quote-replaced message; a parameter `RequestError` is
keyed `<in>.<name>` with the first line of the wrapped cause; a
`RequestError` wrapping a `MultiError` recurses and merges; a remaining
request-body `RequestError` goes under the key `body` with its full
`Error()` text; anything else goes under `unknown`. -/
def convertOne (acc : Issues) : GoErr → Issues
  | .schemaError ptr reason _ =>
    let field := match ptr with
      | [] => ""
      | _ => String.intercalate "." ptr
    let msg := if field.length > 0 then field ++ ": " ++ reason else reason
    appendIssue acc field [replaceQuotes msg]
  | .requestError p hasBody reason cause =>
    match p with
    | some param =>
      let name := param.loc ++ "." ++ param.name
      let causeText := match cause with
        | some c => errText c
        | none => ""
        -- the Go code reads err.Err.Error() unconditionally; a parameter
        -- RequestError produced by the validator always wraps a cause, so
        -- the nil case (which would panic in Go) is given a neutral text

      appendIssue acc name
        ["parameter '" ++ param.name ++ "' in " ++ param.loc ++ " has an error: " ++
          firstLine causeText]
    | none =>
      match cause with
      | some (.multiError errs) => mergeIssues acc (convertFold [] errs)
      | _ =>
        if hasBody then
          appendIssue acc "body" [errText (.requestError none true reason cause)]
        else acc
  | .multiError errs => appendIssue acc "unknown" [errText (.multiError errs)]
  | .otherErr t => appendIssue acc "unknown" [t]
end

/-- `convertError` of the current `openapi.go`: convert a raw
`openapi3.MultiError` into the key-to-messages map. -/
def convertError (me : List GoErr) : Issues := convertFold [] me

/-- The byte-wise string comparison underlying Go's `sort.Strings`
(UTF-8 byte order coincides with code-point order), written as a
structurally computable Boolean relation on the character lists. -/
def leChars : List Char → List Char → Bool
  | [], _ => true
  | _ :: _, [] => false
  | a :: as, b :: bs =>
    if a.toNat < b.toNat then true
    else if b.toNat < a.toNat then false
    else leChars as bs

/-- Go's `s <= t` on strings: byte-wise lexicographic order. -/
def strLe (s t : String) : Prop := leChars s.data t.data = true

instance : DecidableRel strLe := fun s t =>
  inferInstanceAs (Decidable (leChars s.data t.data = true))

/-- Go's `sort.Strings`, specialised to the key list (keys are unique, so
any correct comparison sort produces this list). -/
def sortStrings (names : List String) : List String :=
  List.insertionSort strLe names

/-- The flattening loop of the pipeline: collect the map's keys, sort them,
and concatenate the buckets in sorted key order (Go:
`for k := range issues \x7b names = append(names, k) \x7d; sort.Strings(names);
for _, k := range names \x7b for _, msg := range issues[k] \x7b errs = append(errs, msg) \x7d \x7d`). -/
def flattenSorted (issues : Issues) : List String :=
  (sortStrings (issues.map Prod.fst)).foldl
    (fun acc k => acc ++ ((findIssues issues k).getD [])) []

/-- Go's `check(path, method, m)`: true iff some entry of the exemption
table has this path as key and lists this method. -/
def check (path : String) (method : String) (m : List (String × List String)) : Bool :=
  m.any fun kv => kv.1 = path && kv.2.any fun i => method = i

/-- The per-request data the middleware reads: `c.Path()` (Echo's registered
route pattern, used for the exemption check) and the HTTP method. -/
structure Request where
  path : String
  method : String
deriving DecidableEq, Repr

/-- The typed failures of the external route resolver
(`routers.ErrPathNotFound`, `routers.ErrMethodNotAllowed`, matched by
`errors.Is`, i.e. by identity of the sentinel, never by text), or any other
resolver error with its text. -/
inductive RouteErr where
  | pathNotFound
  | methodNotAllowed
  | other (text : String)
deriving DecidableEq, Repr

/-- The successful result of `router.FindRoute`: the matched operation and
the extracted path parameters. -/
structure RouteInfo where
  operationId : String
  pathParams : List (String × String)
deriving DecidableEq, Repr

/-- The `*openapi3filter.RequestValidationInput` stored on the Echo context
after successful request validation (its `Options` are the constants
`MultiError: true`, `AuthenticationFunc: NoopAuthenticationFunc`). -/
structure RequestValidationInput where
  request : Request
  pathParams : List (String × String)
  operationId : String
deriving DecidableEq, Repr

/-- Outcome of the external `openapi3filter.ValidateRequest` as the Go type
switch distinguishes it: `nil`, an `openapi3.MultiError` (always the case
for validation failures, since the middleware sets the `MultiError`
option), or any other error. -/
inductive ReqValidationResult where
  | ok
  | multi (me : List GoErr)
  | otherFailure (e : GoErr)

/-- A value stored in Echo's per-request key-value store: either a
`*openapi3filter.RequestValidationInput` (the only type the handler's
type assertion accepts) or a value of any other dynamic type. -/
inductive StoreVal where
  | validatorInput (input : RequestValidationInput)
  | otherVal (description : String)
deriving DecidableEq, Repr

/-- Echo's per-request key-value store (`c.Set` / `c.Get`). -/
abbrev Store := List (String × StoreVal)

/-- Echo's `c.Get(key)`. -/
def storeGet : Store → String → Option StoreVal
  | [], _ => none
  | (k', v) :: rest, k => if k' = k then some v else storeGet rest k

/-- Echo's `c.Set(key, value)` (later writes shadow earlier ones). -/
def storeSet (store : Store) (k : String) (v : StoreVal) : Store :=
  (k, v) :: store

/-- Middleware configuration (`Config` of the current `openapi.go`).
`schemaBytes` models the `[]byte` field as a string; the empty string is
Go's `len(config.SchemaBytes) == 0`. -/
structure Config where
  skipper : Option (Request → Bool)
  schema : String
  schemaBytes : String
  contextKey : String
  exemptRoutes : List (String × List String)

/-- `middleware.DefaultSkipper`: never skip. -/
def DefaultSkipper : Request → Bool := fun _ => false

/-- `DefaultConfig` of `openapi.go`. -/
def DefaultConfig : Config :=
  { skipper := some DefaultSkipper, schema := "", schemaBytes := "",
    contextKey := "validator", exemptRoutes := [] }

/-- The construction-time external collaborators of `OpenAPIWithConfig`:
kin-openapi's document loader (`LoadFromFile` / `LoadFromData`), document
validator (`schema.Validate`, returning `none` on success) and gorillamux
router builder (`gorillamux.NewRouter`), as black boxes. -/
structure BuildExt (Schema Router : Type) where
  loadFromFile : String → Except String Schema
  loadFromData : String → Except String Schema
  validateSchema : Schema → Option String
  newRouter : Schema → Except String Router

/-- The state captured by the middleware closure returned by
`OpenAPIWithConfig`: the effective skipper, context key and exemption
table, and the route matcher built once at construction time. -/
structure Middleware (Router : Type) where
  skipper : Request → Bool
  contextKey : String
  exemptRoutes : List (String × List String)
  router : Router

/-- The schema-source selection of `OpenAPIWithConfig`: `SchemaBytes` takes
precedence when non-empty, otherwise the file path is loaded. -/
def loadSchemaSource {Schema Router : Type} (bx : BuildExt Schema Router)
    (config : Config) : Except String Schema :=
  if config.schemaBytes ≠ "" then bx.loadFromData config.schemaBytes
  else bx.loadFromFile config.schema

/-- `OpenAPIWithConfig` (current generation): fill in defaults, then load,
validate and compile the schema once, before any request is served.  Go
panics on each failure; a panic is modelled as `Except.error`, on which no
middleware value exists and so no request can ever be handled. -/
def OpenAPIWithConfig {Schema Router : Type} (bx : BuildExt Schema Router)
    (config : Config) : Except String (Middleware Router) :=
  let skipper := config.skipper.getD DefaultSkipper
  if config.schema = "" ∧ config.schemaBytes = "" then
    .error "either schema or schemaBytes is required"
  else
    let contextKey := if config.contextKey = "" then DefaultConfig.contextKey
      else config.contextKey
    match loadSchemaSource bx config with
    | .error e => .error ("failed loading schema file: " ++ e)
    | .ok schema =>
      match bx.validateSchema schema with
      | some e => .error ("failed validating schema: " ++ e)
      | none =>
        match bx.newRouter schema with
        | .error e => .error ("failed creating router: " ++ e)
        | .ok router =>
          .ok { skipper := skipper, contextKey := contextKey,
                exemptRoutes := config.exemptRoutes, router := router }

/-- `OpenAPI(file)`: the default configuration with a file path. -/
def OpenAPI {Schema Router : Type} (bx : BuildExt Schema Router)
    (file : String) : Except String (Middleware Router) :=
  OpenAPIWithConfig bx { DefaultConfig with schema := file }

/-- `OpenAPIFromBytes(b)`: the default configuration with raw bytes. -/
def OpenAPIFromBytes {Schema Router : Type} (bx : BuildExt Schema Router)
    (b : String) : Except String (Middleware Router) :=
  OpenAPIWithConfig bx { DefaultConfig with schemaBytes := b }

/-- The request-time external collaborators of the middleware closure:
`router.FindRoute` and `openapi3filter.ValidateRequest` (the latter run
with the `MultiError` option set and a no-op authentication function). -/
structure RunExt (Router : Type) where
  findRoute : Router → Request → Except RouteErr RouteInfo
  validateRequest : RouteInfo → Request → ReqValidationResult

/-- HTTP status constants used by the pipeline. -/
def StatusBadRequest : Nat := 400

/-- HTTP 404. -/
def StatusNotFound : Nat := 404

/-- HTTP 405. -/
def StatusMethodNotAllowed : Nat := 405

/-- HTTP 422. -/
def StatusUnprocessableEntity : Nat := 422

/-- HTTP 204. -/
def StatusNoContent : Nat := 204

/-- HTTP 500. -/
def StatusInternalServerError : Nat := 500

/-- The observable outcome of one run of the middleware closure:
delegation to the downstream handler (`next`, with the context store it
sees), an `echo.NewHTTPError`, a `JSONValidationError` body written at a
status, or a bare error returned to Echo. -/
inductive MwResult where
  | next (store : Store)
  | httpError (code : Nat) (message : String)
  | jsonValidationError (code : Nat) (message : String) (errors : List String)
  | errorReturn (text : String)
deriving DecidableEq, Repr

/-- One run of the middleware closure of the current `OpenAPIWithConfig`:
skipper check, exemption check, route resolution (typed 404/405 mapping,
other errors propagated), request validation with the `MultiError` option,
conversion of a multi-error via `convertError`, the distinguished `body`
bucket reported at 400, all other buckets flattened in sorted key order at
422, and on success the validation input stored under the context key
before delegating. -/
def middlewareRun {Router : Type} (rx : RunExt Router) (mw : Middleware Router)
    (store : Store) (req : Request) : MwResult :=
  if mw.skipper req then .next store
  else if check req.path req.method mw.exemptRoutes then .next store
  else
    match rx.findRoute mw.router req with
    | .error .pathNotFound => .httpError StatusNotFound "Path not found"
    | .error .methodNotAllowed => .httpError StatusMethodNotAllowed "Method not allowed"
    | .error (.other t) => .errorReturn t
    | .ok route =>
      match rx.validateRequest route req with
      | .ok =>
        .next (storeSet store mw.contextKey (.validatorInput
          { request := req, pathParams := route.pathParams,
            operationId := route.operationId }))
      | .multi me =>
        let issues := convertError me
        match findIssues issues "body" with
        | some val => .jsonValidationError StatusBadRequest "Request error" val
        | none =>
          .jsonValidationError StatusUnprocessableEntity "Validation error"
            (flattenSorted issues)
      | .otherFailure e => .errorReturn (errText e)

/-- Character-list core of Go's `strings.HasPrefix`. -/
def hasPrefixChars : List Char → List Char → Bool
  | [], _ => true
  | _ :: _, [] => false
  | p :: ps, c :: cs => p == c && hasPrefixChars ps cs

/-- Go's `strings.HasPrefix(s, pre)`. -/
def goHasPrefix (s pre : String) : Bool := hasPrefixChars pre.data s.data

/-- `echo.MIMEApplicationJSON`, also the package constant `ApplicationJSON`. -/
def ApplicationJSON : String := "application/json"

/-- `echo.MIMETextPlain`. -/
def MIMETextPlain : String := "text/plain"

/-- `HandlerConfig` of the current `handler.go`. -/
structure HandlerConfig where
  contentType : String
  validatorKey : String
  excludeRequestBody : Bool
  excludeResponseBody : Bool
  includeResponseStatus : Bool
deriving DecidableEq, Repr

/-- `DefaultHandlerConfig` of `handler.go`. -/
def DefaultHandlerConfig : HandlerConfig :=
  { contentType := ApplicationJSON, validatorKey := "validator",
    excludeRequestBody := false, excludeResponseBody := false,
    includeResponseStatus := true }

/-- The `Handler` struct. -/
structure Handler where
  config : HandlerConfig
deriving DecidableEq, Repr

/-- `NewHandlerWithConfig`: fill in the defaulted string fields. -/
def NewHandlerWithConfig (config : HandlerConfig) : Handler :=
  let config := if config.contentType = "" then
    { config with contentType := DefaultHandlerConfig.contentType } else config
  let config := if config.validatorKey = "" then
    { config with validatorKey := DefaultHandlerConfig.validatorKey } else config
  { config := config }

/-- `NewHandler`: the default configuration. -/
def NewHandler : Handler := NewHandlerWithConfig DefaultHandlerConfig

/-- The dynamic value `v any` passed to `Validate`, covering the cases the
non-JSON branch of `validate` distinguishes: a `string`, a `[]byte`, or a
value of any other dynamic type (carrying its `fmt` `%s` rendering, used in
the `type %s not supported` message). -/
inductive GoVal where
  | strVal (s : String)
  | bytesVal (b : String)
  | otherDyn (rendered : String)
deriving DecidableEq, Repr

/-- The `openapi3filter.Options` the handler passes to response validation. -/
structure RespOptions where
  excludeRequestBody : Bool
  excludeResponseBody : Bool
  includeResponseStatus : Bool
  multiError : Bool
deriving DecidableEq, Repr

/-- Outcome of the external `openapi3filter.ValidateResponse` as the
handler's type switch distinguishes it: a `*openapi3filter.ResponseError`
(with its `Reason` and wrapped `Err`), or any other error with its text;
`none` is success. -/
inductive RespErr where
  | responseError (reason : String) (cause : Option GoErr)
  | otherFailure (text : String)

/-- The response-side external collaborators of `validate`:
`json.Marshal` and `openapi3filter.ValidateResponse`
(input, status, response headers, body bytes, options), as black boxes. -/
structure RespExt where
  jsonMarshal : GoVal → Except String String
  validateResponse : RequestValidationInput → Nat → List (String × String) → String →
    RespOptions → Option RespErr

/-- A response actually written to the wire by the handler
(`c.NoContent` or `c.Blob`). -/
inductive HandlerOutcome where
  | noContent (code : Nat)
  | blob (code : Nat) (contentType : String) (body : String)
deriving DecidableEq, Repr

/-- `(*Handler).validate` of the current `handler.go`: a no-content status
returns immediately; the validation input is read from the context store by
a type assertion (failure returns the `validator key is wrong type` error
before anything is serialized or written); the body is marshaled according
to the content type (JSON via `json.Marshal`, otherwise only `string` and
`[]byte` are accepted); `ValidateResponse` is run with the handler's option
flags and `MultiError: true`; a `ResponseError` wrapping a multi-error is
converted via `convertError` and returned as a `failed validating response`
error (so the body is never written); any other error type is returned
likewise; note that the source's switch falls through to `c.Blob` for a
`ResponseError` that does not wrap a multi-error.  The Go function's
returned `error` is `Except.error`; a written response is `Except.ok`. -/
def Handler.validate (ext : RespExt) (h : Handler) (store : Store) (code : Nat)
    (contentType : String) (v : GoVal) : Except String HandlerOutcome :=
  if code = StatusNoContent then .ok (.noContent code)
  else
    match storeGet store h.config.validatorKey with
    | some (.validatorInput input) =>
      let marshaled : Except String (List (String × String) × String) :=
        if goHasPrefix contentType ApplicationJSON then
          match ext.jsonMarshal v with
          | .error e => .error ("failed marshaling response: " ++ e)
          | .ok b => .ok ([("Content-Type", contentType)], b)
        else
          match v with
          | .strVal s => .ok ([("Content-Type", MIMETextPlain)], s)
          | .bytesVal b => .ok ([("Content-Type", MIMETextPlain)], b)
          | .otherDyn rendered => .error ("type " ++ rendered ++ " not supported")
      match marshaled with
      | .error e => .error e
      | .ok (headers, b) =>
        let opts : RespOptions :=
          { excludeRequestBody := h.config.excludeRequestBody,
            excludeResponseBody := h.config.excludeResponseBody,
            includeResponseStatus := h.config.includeResponseStatus,
            multiError := true }
        match ext.validateResponse input code headers b opts with
        | some (.responseError _ (some (.multiError me))) =>
          .error ("failed validating response: " ++
            String.intercalate "; " (flattenSorted (convertError me)))
        | some (.responseError _ _) => .ok (.blob code h.config.contentType b)
        | some (.otherFailure t) => .error ("failed validating response: " ++ t)
        | none => .ok (.blob code h.config.contentType b)
    | _ => .error "validator key is wrong type"

/-- `(*Handler).Validate`: `validate` at the configured content type. -/
def Handler.Validate (ext : RespExt) (h : Handler) (store : Store) (code : Nat)
    (v : GoVal) : Except String HandlerOutcome :=
  Handler.validate ext h store code h.config.contentType v

/-- `(*Handler).ValidateWithContentType`. -/
def Handler.ValidateWithContentType (ext : RespExt) (h : Handler) (store : Store)
    (code : Nat) (contentType : String) (v : GoVal) : Except String HandlerOutcome :=
  Handler.validate ext h store code contentType v

/-- What the HTTP client observes for a handler invocation. -/
inductive ClientView where
  | response (out : HandlerOutcome)
  | errorMessage (code : Nat) (message : String)
deriving DecidableEq, Repr

/-- Echo's `DefaultHTTPErrorHandler` (external framework), restricted to
the two cases the handler can produce: a written response passes through,
and a plain (non-`echo.HTTPError`) error returned by the handler is
rendered to the client as HTTP 500 with the fixed body message
`Internal Server Error`; the error's own text is only logged server-side. -/
def echoRender : Except String HandlerOutcome → ClientView
  | .ok out => .response out
  | .error _ => .errorMessage StatusInternalServerError "Internal Server Error"

/-! Concrete fixtures used by witnesses and counterexamples. -/

/-- A response-side environment whose external calls all succeed. -/
def respExtOk : RespExt :=
  { jsonMarshal := fun _ => .ok "null", validateResponse := fun _ _ _ _ _ => none }

/-- Middleware closure state over a trivial router, as built from the
default configuration. -/
def mwFix : Middleware Unit :=
  { skipper := DefaultSkipper, contextKey := "validator", exemptRoutes := [],
    router := () }

/-- The `POST /validation` request of the repository's test schema. -/
def reqValidationFix : Request := { path := "/validation", method := "POST" }

/-- The matched route for `POST /validation`. -/
def routeFix : RouteInfo := { operationId := "POST /validation", pathParams := [] }

/-- The raw multi-error of a request with a missing required body. -/
def meMissingBody : List GoErr :=
  [.requestError none true "" (some (.otherErr "value is required but missing"))]

/-- A resolver/validator environment reporting a missing body. -/
def rxMissingBody : RunExt Unit :=
  { findRoute := fun _ _ => .ok routeFix,
    validateRequest := fun _ _ => .multi meMissingBody }

/-- A raw multi-error whose only failure is a semantic body-field error on
a required object property literally named `body`. -/
def meBodyField : List GoErr :=
  [.requestError none true "" (some (.multiError
    [.schemaError ["body"] "property \"body\" is missing" "rendered detail"]))]

/-- A resolver/validator environment reporting the `body`-field error. -/
def rxBodyField : RunExt Unit :=
  { findRoute := fun _ _ => .ok routeFix,
    validateRequest := fun _ _ => .multi meBodyField }

/-- A bad path parameter and a missing body discovered in the same pass. -/
def meMixed : List GoErr :=
  [.requestError (some { name := "username", loc := "path" }) false ""
      (some (.otherErr "minimum string length is 2")),
   .requestError none true "" (some (.otherErr "value is required but missing"))]

/-- A resolver/validator environment reporting the mixed failure. -/
def rxMixed : RunExt Unit :=
  { findRoute := fun _ _ => .ok routeFix,
    validateRequest := fun _ _ => .multi meMixed }

/-- Two bad parameters, discovered in reverse lexicographic key order. -/
def meTwoParams : List GoErr :=
  [.requestError (some { name := "limit", loc := "query" }) false ""
      (some (.otherErr "number must be at most 100")),
   .requestError (some { name := "username", loc := "path" }) false ""
      (some (.otherErr "minimum string length is 2"))]

/-- A resolver/validator environment reporting the two parameter errors. -/
def rxTwoParams : RunExt Unit :=
  { findRoute := fun _ _ => .ok routeFix,
    validateRequest := fun _ _ => .multi meTwoParams }

/-- A multi-line parameter cause as kin-openapi renders it: the reason on
the first line, schema details on the following lines. -/
def causeParamFix : GoErr :=
  .multiError [.schemaError [] "minimum string length is 2"
    "minimum string length is 2\nSchema:\n  minLength 2\n  type string"]

/-- A resolver/validator environment reporting one bad path parameter with
the multi-line cause. -/
def rxOneParam : RunExt Unit :=
  { findRoute := fun _ _ => .ok routeFix,
    validateRequest := fun _ _ => .multi
      [.requestError (some { name := "username", loc := "path" }) false ""
        (some causeParamFix)] }

/-- A resolver that finds no matching path. -/
def rxPathNotFound : RunExt Unit :=
  { findRoute := fun _ _ => .error .pathNotFound,
    validateRequest := fun _ _ => .ok }

/-- A resolver that matches the path but not the method. -/
def rxMethodNotAllowed : RunExt Unit :=
  { findRoute := fun _ _ => .error .methodNotAllowed,
    validateRequest := fun _ _ => .ok }

/-- A resolver failing with an untyped error whose text happens to read
like the path-not-found message. -/
def rxOtherFailure : RunExt Unit :=
  { findRoute := fun _ _ => .error (.other "Path not found"),
    validateRequest := fun _ _ => .ok }

/-- A validation input as the middleware would store it for `GET /`. -/
def inputFix : RequestValidationInput :=
  { request := { path := "/", method := "GET" }, pathParams := [],
    operationId := "GET /" }

/-- A context store holding the validation input under the default key. -/
def storeWithValidator : Store := [("validator", .validatorInput inputFix)]

/-- A response-side environment whose validator rejects the body: the
schema forbids the extra property `invalid`. -/
def respExtBadBody : RespExt :=
  { jsonMarshal := fun _ => .ok "\x7b\"invalid\":\"welcome\"\x7d",
    validateResponse := fun _ _ _ _ _ =>
      some (.responseError "response body doesn't match the schema"
        (some (.multiError
          [.schemaError ["invalid"] "property \"invalid\" is unsupported"
            "rendered detail"]))) }

/-- A build environment whose file loader cannot read any path. -/
def bxLoadFails : BuildExt String Unit :=
  { loadFromFile := fun _ => .error "open /invalid/path: no such file or directory",
    loadFromData := fun _ => .error "unreadable",
    validateSchema := fun _ => none,
    newRouter := fun _ => .ok () }

/-- A build environment whose loading, validation and router construction
all succeed (over a trivial schema and router representation). -/
def bxOk : BuildExt String Unit :=
  { loadFromFile := fun _ => .ok "schema",
    loadFromData := fun _ => .ok "schema",
    validateSchema := fun _ => none,
    newRouter := fun _ => .ok () }

/-- Middleware closure state with an exemption for `POST /exempt`. -/
def mwExempt : Middleware Unit :=
  { skipper := DefaultSkipper, contextKey := "validator",
    exemptRoutes := [("/exempt", ["POST"])], router := () }

/-- The `POST /exempt` request. -/
def reqExempt : Request := { path := "/exempt", method := "POST" }

/-! Helper lemmas about the converter's association-list map and the
sorted flattening. -/

/-- The replacement of double quotes is exhaustive: no double-quote
character survives `replaceQuotes`. -/
theorem replaceQuotes_no_quote (s : String) : '"' ∉ (replaceQuotes s).data := by
  simp only [replaceQuotes]
  intro h
  rcases List.mem_map.mp h with ⟨c, _, hc⟩
  by_cases hq : c = '"'
  · rw [if_pos hq] at hc
    exact absurd hc (by decide)
  · rw [if_neg hq] at hc
    exact hq hc

/-- The first line of a string contains no newline character. -/
theorem firstLine_no_newline (s : String) : '\n' ∉ (firstLine s).data := by
  simp only [firstLine]
  intro h
  have := List.mem_takeWhile_imp h
  simp at this

/-- A parameter key `<in>.<name>` always contains a dot and so can never
collide with the distinguished key `body`. -/
theorem dot_key_ne_body (loc name : String) : loc ++ "." ++ name ≠ "body" := by
  intro h
  have hd := congrArg String.data h
  simp only [String.data_append] at hd
  have hmem : ('.' : Char) ∈ (['b', 'o', 'd', 'y'] : List Char) := by
    rw [← hd]
    simp
  exact absurd hmem (by decide)

/-- A nonempty string has positive length. -/
theorem length_pos_of_ne_empty (s : String) (h : s ≠ "") : s.length > 0 := by
  cases s with
  | mk l =>
    have hl : l ≠ [] := by
      intro hnil
      exact h (by simp [hnil])
    have : l.length > 0 := List.length_pos.mpr hl
    simpa [String.length] using this

/-- Keys after `appendIssue`: unchanged if the key already exists,
otherwise the new key is appended. -/
theorem appendIssue_keys (l : Issues) (k : String) (msgs : List String) :
    (appendIssue l k msgs).map Prod.fst =
      if k ∈ l.map Prod.fst then l.map Prod.fst else l.map Prod.fst ++ [k] := by
  induction l with
  | nil => simp [appendIssue]
  | cons kv rest ih =>
    obtain ⟨k', v⟩ := kv
    by_cases hk : k' = k
    · subst hk
      simp [appendIssue]
    · simp only [appendIssue, if_neg hk, List.map_cons, ih]
      by_cases hmem : k ∈ rest.map Prod.fst
      · simp [hmem, Ne.symm hk]
      · simp [hmem, Ne.symm hk]

/-- `appendIssue` preserves uniqueness of the keys. -/
theorem appendIssue_nodup (l : Issues) (k : String) (msgs : List String)
    (h : (l.map Prod.fst).Nodup) : ((appendIssue l k msgs).map Prod.fst).Nodup := by
  rw [appendIssue_keys]
  by_cases hmem : k ∈ l.map Prod.fst
  · simpa [hmem] using h
  · rw [if_neg hmem]
    exact List.Nodup.append h (List.nodup_singleton k) (by simpa using hmem)

/-- `mergeIssues` preserves uniqueness of the keys of the accumulator. -/
theorem mergeIssues_nodup (sub : Issues) : ∀ acc : Issues,
    (acc.map Prod.fst).Nodup → ((mergeIssues acc sub).map Prod.fst).Nodup := by
  induction sub with
  | nil => intro acc h; simpa [mergeIssues] using h
  | cons kv rest ih =>
    intro acc h
    have : mergeIssues acc (kv :: rest) = mergeIssues (appendIssue acc kv.1 kv.2) rest := rfl
    rw [this]
    exact ih _ (appendIssue_nodup _ _ _ h)

/-- `convertOne` preserves uniqueness of the keys (each branch is an
`appendIssue`, a `mergeIssues`, or the identity). -/
theorem convertOne_nodup (acc : Issues) (e : GoErr)
    (h : (acc.map Prod.fst).Nodup) : ((convertOne acc e).map Prod.fst).Nodup := by
  cases e with
  | schemaError ptr reason detail => exact appendIssue_nodup _ _ _ h
  | requestError p hasBody reason cause =>
    cases p with
    | some param => exact appendIssue_nodup _ _ _ h
    | none =>
      cases cause with
      | none =>
        cases hasBody with
        | true => exact appendIssue_nodup _ _ _ h
        | false => simpa [convertOne] using h
      | some c =>
        cases c with
        | multiError errs => exact mergeIssues_nodup _ _ h
        | schemaError p r d =>
          cases hasBody with
          | true => exact appendIssue_nodup _ _ _ h
          | false => simpa [convertOne] using h
        | requestError p' b' r' c' =>
          cases hasBody with
          | true => exact appendIssue_nodup _ _ _ h
          | false => simpa [convertOne] using h
        | otherErr t =>
          cases hasBody with
          | true => exact appendIssue_nodup _ _ _ h
          | false => simpa [convertOne] using h
  | multiError errs => exact appendIssue_nodup _ _ _ h
  | otherErr t => exact appendIssue_nodup _ _ _ h

/-- `convertFold` preserves uniqueness of the keys. -/
theorem convertFold_nodup (me : List GoErr) : ∀ acc : Issues,
    (acc.map Prod.fst).Nodup → ((convertFold acc me).map Prod.fst).Nodup := by
  induction me with
  | nil => intro acc h; simpa [convertFold] using h
  | cons e rest ih =>
    intro acc h
    have : convertFold acc (e :: rest) = convertFold (convertOne acc e) rest := rfl
    rw [this]
    exact ih _ (convertOne_nodup _ _ h)

/-- The keys of a converted multi-error are unique. -/
theorem convertError_nodup (me : List GoErr) :
    ((convertError me).map Prod.fst).Nodup :=
  convertFold_nodup me [] (by simp)

/-- A successful `findIssues` read is exactly membership of the pair. -/
theorem findIssues_eq_some_of_mem (l : Issues) (k : String) (v : List String)
    (hnd : (l.map Prod.fst).Nodup) (hmem : (k, v) ∈ l) : findIssues l k = some v := by
  induction l with
  | nil => cases hmem
  | cons kv rest ih =>
    obtain ⟨k', v'⟩ := kv
    rcases List.mem_cons.mp hmem with heq | htl
    · obtain ⟨h1, h2⟩ := Prod.mk.injEq .. ▸ heq
      simp only [findIssues]
      rw [if_pos (by exact h1.symm ▸ rfl)]
      exact congrArg some h2.symm
    · have hk : k' ≠ k := by
        intro hkk
        subst hkk
        have : k' ∈ rest.map Prod.fst := List.mem_map.mpr ⟨(k', v), htl, rfl⟩
        exact (List.nodup_cons.mp hnd).1 this
      simp only [findIssues, if_neg hk]
      exact ih (List.nodup_cons.mp hnd).2 htl

/-- A member pair read back from `findIssues`. -/
theorem mem_of_findIssues_eq_some (l : Issues) (k : String) (v : List String)
    (h : findIssues l k = some v) : (k, v) ∈ l := by
  induction l with
  | nil => simp [findIssues] at h
  | cons kv rest ih =>
    obtain ⟨k', v'⟩ := kv
    by_cases hk : k' = k
    · subst hk
      have hv : v' = v := by simpa [findIssues] using h
      exact List.mem_cons.mpr (Or.inl (by rw [hv]))
    · simp only [findIssues, if_neg hk] at h
      exact List.mem_cons.mpr (Or.inr (ih h))

/-- A failing `findIssues` read means the key is absent. -/
theorem findIssues_eq_none_iff (l : Issues) (k : String) :
    findIssues l k = none ↔ k ∉ l.map Prod.fst := by
  induction l with
  | nil => simp [findIssues]
  | cons kv rest ih =>
    obtain ⟨k', v'⟩ := kv
    by_cases hk : k' = k
    · subst hk
      constructor
      · intro h
        simp [findIssues] at h
      · intro h
        exact absurd (by simp : k' ∈ (List.map Prod.fst ((k', v') :: rest))) h
    · constructor
      · intro h
        rw [List.map_cons]
        intro hmem
        rcases List.mem_cons.mp hmem with he | ht
        · exact hk he.symm
        · exact (ih.mp (by simpa [findIssues, hk] using h)) ht
      · intro h
        simp only [findIssues, if_neg hk]
        exact ih.mpr fun ht => h (by simp [ht])

/-- Map reads are invariant under permutation of the association list when
keys are unique (this is what makes Go's nondeterministic map enumeration
harmless). -/
theorem findIssues_perm (l l' : Issues) (hp : l.Perm l')
    (hnd : (l.map Prod.fst).Nodup) (k : String) :
    findIssues l k = findIssues l' k := by
  have hnd' : (l'.map Prod.fst).Nodup := ((hp.map Prod.fst).nodup_iff).mp hnd
  cases h : findIssues l k with
  | none =>
    have : k ∉ l.map Prod.fst := (findIssues_eq_none_iff l k).mp h
    have : k ∉ l'.map Prod.fst := fun hmem => this ((hp.map Prod.fst).mem_iff.mpr hmem)
    exact ((findIssues_eq_none_iff l' k).mpr this).symm
  | some v =>
    have hmem : (k, v) ∈ l := mem_of_findIssues_eq_some l k v h
    exact (findIssues_eq_some_of_mem l' k v hnd' (hp.mem_iff.mp hmem)).symm

/-- Unfolding of `leChars` on two nonempty lists. -/
theorem leChars_cons_iff (a b : Char) (as bs : List Char) :
    leChars (a :: as) (b :: bs) = true ↔
      (a.toNat < b.toNat ∨ (a.toNat = b.toNat ∧ leChars as bs = true)) := by
  simp only [leChars]
  by_cases h1 : a.toNat < b.toNat
  · simp [h1]
  · by_cases h2 : b.toNat < a.toNat
    · simp only [if_neg h1, if_pos h2]
      constructor
      · intro h
        exact absurd h (by simp)
      · rintro (h | ⟨h, _⟩) <;> omega
    · have he : ¬ a.toNat < b.toNat := h1
      simp only [if_neg h1, if_neg h2]
      constructor
      · intro h
        exact Or.inr ⟨by omega, h⟩
      · rintro (h | ⟨_, h⟩)
        · omega
        · exact h

/-- `leChars` is total. -/
theorem leChars_total : ∀ x y : List Char, leChars x y = true ∨ leChars y x = true
  | [], _ => Or.inl rfl
  | _ :: _, [] => Or.inr rfl
  | a :: as, b :: bs => by
    rcases Nat.lt_trichotomy a.toNat b.toNat with h | h | h
    · exact Or.inl ((leChars_cons_iff a b as bs).mpr (Or.inl h))
    · rcases leChars_total as bs with hr | hr
      · exact Or.inl ((leChars_cons_iff a b as bs).mpr (Or.inr ⟨h, hr⟩))
      · exact Or.inr ((leChars_cons_iff b a bs as).mpr (Or.inr ⟨h.symm, hr⟩))
    · exact Or.inr ((leChars_cons_iff b a bs as).mpr (Or.inl h))

/-- `leChars` is transitive. -/
theorem leChars_trans : ∀ x y z : List Char,
    leChars x y = true → leChars y z = true → leChars x z = true
  | [], _, _, _, _ => rfl
  | _ :: _, [], _, hxy, _ => by simp [leChars] at hxy
  | _ :: _, _ :: _, [], _, hyz => by simp [leChars] at hyz
  | a :: as, b :: bs, c :: cs, hxy, hyz => by
    rcases (leChars_cons_iff a b as bs).mp hxy with h1 | ⟨h1, hr1⟩ <;>
      rcases (leChars_cons_iff b c bs cs).mp hyz with h2 | ⟨h2, hr2⟩
    · exact (leChars_cons_iff a c as cs).mpr (Or.inl (by omega))
    · exact (leChars_cons_iff a c as cs).mpr (Or.inl (by omega))
    · exact (leChars_cons_iff a c as cs).mpr (Or.inl (by omega))
    · exact (leChars_cons_iff a c as cs).mpr
        (Or.inr ⟨by omega, leChars_trans as bs cs hr1 hr2⟩)

/-- Characters with equal code points are equal. -/
theorem char_eq_of_toNat_eq (a b : Char) (h : a.toNat = b.toNat) : a = b :=
  Char.ext_iff.mpr (UInt32.ext h)

/-- `leChars` is antisymmetric. -/
theorem leChars_antisymm : ∀ x y : List Char,
    leChars x y = true → leChars y x = true → x = y
  | [], [], _, _ => rfl
  | [], _ :: _, _, hyx => by simp [leChars] at hyx
  | _ :: _, [], hxy, _ => by simp [leChars] at hxy
  | a :: as, b :: bs, hxy, hyx => by
    rcases (leChars_cons_iff a b as bs).mp hxy with h1 | ⟨h1, hr1⟩ <;>
      rcases (leChars_cons_iff b a bs as).mp hyx with h2 | ⟨h2, hr2⟩ <;>
      try omega
    rw [char_eq_of_toNat_eq a b (by omega), leChars_antisymm as bs hr1 hr2]

instance : IsTotal String strLe :=
  ⟨fun s t => leChars_total s.data t.data⟩

instance : IsTrans String strLe :=
  ⟨fun s t u => leChars_trans s.data t.data u.data⟩

instance : IsAntisymm String strLe :=
  ⟨fun s t hst hts => by
    cases s with
    | mk ls =>
      cases t with
      | mk lt =>
        exact congrArg String.mk (leChars_antisymm ls lt hst hts)⟩

/-- `sortStrings` is a function of the multiset of names: permuted inputs
sort to the same list. -/
theorem sortStrings_perm (l l' : List String) (hp : l.Perm l') :
    sortStrings l = sortStrings l' :=
  List.eq_of_perm_of_sorted
    (((List.perm_insertionSort _ l).trans hp).trans (List.perm_insertionSort _ l').symm)
    (List.sorted_insertionSort _ l) (List.sorted_insertionSort _ l')

/-- The flattening loop only reads `findIssues` at the sorted names. -/
theorem flatten_loop_congr (names : List String) (l l' : Issues)
    (h : ∀ k, findIssues l k = findIssues l' k) : ∀ acc : List String,
    names.foldl (fun acc k => acc ++ ((findIssues l k).getD [])) acc =
      names.foldl (fun acc k => acc ++ ((findIssues l' k).getD [])) acc := by
  induction names with
  | nil => intro acc; rfl
  | cons n rest ih =>
    intro acc
    simp only [List.foldl_cons, h n]
    exact ih _

/-- The sorted flattening is invariant under permutation of the issues map
(unique keys): the final message sequence is a deterministic function of
the key-to-bucket mapping, independent of enumeration order. -/
theorem flattenSorted_perm (l l' : Issues) (hp : l.Perm l')
    (hnd : (l.map Prod.fst).Nodup) : flattenSorted l = flattenSorted l' := by
  unfold flattenSorted
  rw [sortStrings_perm (l.map Prod.fst) (l'.map Prod.fst) (hp.map Prod.fst)]
  exact flatten_loop_congr _ l l' (findIssues_perm l l' hp hnd) []

/-- Flattening a single-key map yields exactly its bucket. -/
theorem flattenSorted_single (k : String) (msgs : List String) :
    flattenSorted [(k, msgs)] = msgs := by
  simp [flattenSorted, sortStrings, List.insertionSort, List.orderedInsert, findIssues]

/-! The claim theorems. -/

/-- C9: calling the handler's `validate` with the no-content status 204
returns the no-content response immediately, for every configuration,
response-side environment, context store, content type and value — so
neither the validator-key lookup nor body serialization nor
response-schema validation can influence (or be reached on) this path. -/
theorem noContent_short_circuit (ext : RespExt) (h : Handler) (store : Store)
    (contentType : String) (v : GoVal) :
    Handler.validate ext h store StatusNoContent contentType v =
      .ok (.noContent StatusNoContent) := rfl

/-- C10: with a status other than 204, if the context store holds nothing
under the configured validator key, or holds a value that is not a
`RequestValidationInput`, `validate` returns the `validator key is wrong
type` error for every response-side environment, content type and value —
before anything is serialized — and writes no response (an `Except.error`
result is a bare returned error, not a write). -/
theorem wrong_validator_key_fails_closed (h : Handler) (store : Store) (code : Nat)
    (hcode : code ≠ StatusNoContent)
    (hstore : storeGet store h.config.validatorKey = none ∨
      ∃ d, storeGet store h.config.validatorKey = some (.otherVal d)) :
    ∀ (ext : RespExt) (contentType : String) (v : GoVal),
      Handler.validate ext h store code contentType v =
        .error "validator key is wrong type" := by
  intro ext contentType v
  unfold Handler.validate
  rw [if_neg hcode]
  rcases hstore with hs | ⟨d, hs⟩ <;> rw [hs]

/-- The wrong-type failure exercised at a concrete call: empty store,
status 200, with an environment whose external calls would all succeed. -/
theorem wrong_validator_key_fails_closed_witness :
    Handler.validate respExtOk NewHandler [] 200 "application/json" (.strVal "x") =
      .error "validator key is wrong type" :=
  wrong_validator_key_fails_closed NewHandler [] 200 (by decide) (Or.inl rfl)
    respExtOk "application/json" (.strVal "x")

/-- C8: a request whose path and method appear together in the exemption
table makes the middleware delegate straight to the downstream handler
with the store untouched, for every route resolver and request validator —
so route resolution and request validation are bypassed even when they
would fail; and the exemption check holds exactly when some table entry
pairs this path with this method. -/
theorem exempt_route_bypasses_validation {Router : Type} (mw : Middleware Router)
    (store : Store) (req : Request)
    (hex : check req.path req.method mw.exemptRoutes = true) :
    (∀ rx : RunExt Router, middlewareRun rx mw store req = .next store) ∧
    (∀ (path method : String) (m : List (String × List String)),
      check path method m = true ↔ ∃ v, (path, v) ∈ m ∧ method ∈ v) := by
  constructor
  · intro rx
    unfold middlewareRun
    by_cases hsk : mw.skipper req <;> simp [hsk, hex]
  · intro path method m
    simp only [check, List.any_eq_true, Bool.and_eq_true, decide_eq_true_eq]
    constructor
    · rintro ⟨⟨k, v⟩, hmem, hk, i, hi, hm⟩
      subst hk
      subst hm
      exact ⟨v, hmem, hi⟩
    · rintro ⟨v, hmem, hm⟩
      exact ⟨(path, v), hmem, rfl, method, hm, rfl⟩

/-- The exemption bypass at a concrete table entry, with a resolver and
validator that would report a mixed validation failure. -/
theorem exempt_route_bypasses_validation_witness :
    middlewareRun rxMixed mwExempt [] reqExempt = .next [] :=
  (exempt_route_bypasses_validation mwExempt [] reqExempt (by decide)).1 rxMixed

/-- C5: route-resolution failures are dispatched on the typed sentinel of
the resolver error — `pathNotFound` to 404 `Path not found`,
`methodNotAllowed` to 405 `Method not allowed` — and every other resolver
failure is returned to the caller unchanged; the dispatch never inspects
the message text (an `other` failure propagates whatever its text, even
the literal 404 message, as the witness shows). -/
theorem route_resolution_typed_failures {Router : Type} (rx : RunExt Router)
    (mw : Middleware Router) (store : Store) (req : Request)
    (hskip : mw.skipper req = false)
    (hex : check req.path req.method mw.exemptRoutes = false) :
    (rx.findRoute mw.router req = .error .pathNotFound →
      middlewareRun rx mw store req = .httpError StatusNotFound "Path not found") ∧
    (rx.findRoute mw.router req = .error .methodNotAllowed →
      middlewareRun rx mw store req =
        .httpError StatusMethodNotAllowed "Method not allowed") ∧
    (∀ t, rx.findRoute mw.router req = .error (.other t) →
      middlewareRun rx mw store req = .errorReturn t) := by
  refine ⟨fun hr => ?_, fun hr => ?_, fun t hr => ?_⟩ <;>
    simp [middlewareRun, hskip, hex, hr]

/-- The three resolver outcomes at concrete environments: 404, 405, and
unchanged propagation of an untyped failure whose text mimics the 404
message. -/
theorem route_resolution_typed_failures_witness :
    middlewareRun rxPathNotFound mwFix [] reqValidationFix =
      .httpError StatusNotFound "Path not found" ∧
    middlewareRun rxMethodNotAllowed mwFix [] reqValidationFix =
      .httpError StatusMethodNotAllowed "Method not allowed" ∧
    middlewareRun rxOtherFailure mwFix [] reqValidationFix =
      .errorReturn "Path not found" :=
  ⟨(route_resolution_typed_failures rxPathNotFound mwFix [] reqValidationFix
      rfl rfl).1 rfl,
   (route_resolution_typed_failures rxMethodNotAllowed mwFix [] reqValidationFix
      rfl rfl).2.1 rfl,
   (route_resolution_typed_failures rxOtherFailure mwFix [] reqValidationFix
      rfl rfl).2.2 "Path not found" rfl⟩

/-- C3: a schema-level field error converts to the key given by the
dot-joined JSON pointer path (the empty string at the document root) and
the message `<field>: <reason>`, with the field prefix omitted exactly
when that path is empty, and with every double-quote character of the
result replaced by a single quote (the replacement is exhaustive). -/
theorem schema_error_key_and_message (acc : Issues) (ptr : List String)
    (reason detail : String) :
    convertOne acc (.schemaError ptr reason detail) =
      appendIssue acc (String.intercalate "." ptr)
        [replaceQuotes (if String.intercalate "." ptr = "" then reason
          else String.intercalate "." ptr ++ ": " ++ reason)] ∧
    String.intercalate "." ([] : List String) = "" ∧
    (∀ s : String, '"' ∉ (replaceQuotes s).data) := by
  refine ⟨?_, rfl, replaceQuotes_no_quote⟩
  cases ptr with
  | nil => rfl
  | cons p ps =>
    have hred : convertOne acc (.schemaError (p :: ps) reason detail) =
        appendIssue acc (String.intercalate "." (p :: ps))
          [replaceQuotes (if (String.intercalate "." (p :: ps)).length > 0
            then String.intercalate "." (p :: ps) ++ ": " ++ reason else reason)] := rfl
    rw [hred]
    by_cases hf : String.intercalate "." (p :: ps) = ""
    · rw [hf]
      simp
    · rw [if_pos (length_pos_of_ne_empty _ hf), if_neg hf]

/-- C7: a parameter validation error converts to the key
`<location>.<parameter-name>` and the message `parameter '<name>' in
<location> has an error: <first line of the wrapped cause>` — only the
first line of a possibly multi-line cause is surfaced (the first line
provably contains no newline) — and through the pipeline it is reported at
422 (its key contains a dot, so it can never hit the `body` bucket). -/
theorem parameter_error_first_line {Router : Type} (rx : RunExt Router)
    (mw : Middleware Router) (store : Store) (req : Request) (route : RouteInfo)
    (name loc reason : String) (hasBody : Bool) (cause : GoErr)
    (hskip : mw.skipper req = false)
    (hex : check req.path req.method mw.exemptRoutes = false)
    (hroute : rx.findRoute mw.router req = .ok route)
    (hval : rx.validateRequest route req =
      .multi [.requestError (some { name := name, loc := loc }) hasBody reason
        (some cause)]) :
    convertError [.requestError (some { name := name, loc := loc }) hasBody reason
        (some cause)] =
      [(loc ++ "." ++ name,
        ["parameter '" ++ name ++ "' in " ++ loc ++ " has an error: " ++
          firstLine (errText cause)])] ∧
    middlewareRun rx mw store req =
      .jsonValidationError StatusUnprocessableEntity "Validation error"
        ["parameter '" ++ name ++ "' in " ++ loc ++ " has an error: " ++
          firstLine (errText cause)] ∧
    (∀ s : String, '\n' ∉ (firstLine s).data) := by
  have hconv : convertError [.requestError (some { name := name, loc := loc })
      hasBody reason (some cause)] =
      [(loc ++ "." ++ name,
        ["parameter '" ++ name ++ "' in " ++ loc ++ " has an error: " ++
          firstLine (errText cause)])] := rfl
  refine ⟨hconv, ?_, firstLine_no_newline⟩
  have hfind : findIssues [(loc ++ "." ++ name,
      ["parameter '" ++ name ++ "' in " ++ loc ++ " has an error: " ++
        firstLine (errText cause)])] "body" = none := by
    simp [findIssues, dot_key_ne_body loc name]
  simp only [middlewareRun, hskip, hex, hroute, hval, hconv, hfind,
    Bool.false_eq_true, if_false]
  rw [flattenSorted_single]

/-- The parameter message at a concrete run: the multi-line underlying
cause is cut to its first line, and the result is reported at 422. -/
theorem parameter_error_first_line_witness :
    middlewareRun rxOneParam mwFix [] reqValidationFix =
      .jsonValidationError StatusUnprocessableEntity "Validation error"
        ["parameter 'username' in path has an error: minimum string length is 2"] :=
  (parameter_error_first_line rxOneParam mwFix [] reqValidationFix routeFix
    "username" "path" "" false causeParamFix rfl rfl rfl rfl).2.1

/-- C1 (amended): a request-body error with no nested multi-error is
recorded under the distinguished key `body` with the error's full text;
whenever the converted issues contain the key `body` the pipeline responds
HTTP 400 (Bad Request) with exactly that bucket's messages; a validation
failure whose converted issues contain no `body` key is reported at HTTP
422 (Unprocessable Entity).  (The original claim's `every other failure
gets 422` fails on the code: a schema-level error on a field literally
named `body` also lands in the `body` bucket and is reported at 400 — see
the counterexample.) -/
theorem body_bucket_400_amended {Router : Type} (rx : RunExt Router)
    (mw : Middleware Router) (store : Store) (req : Request) (route : RouteInfo)
    (me : List GoErr)
    (hskip : mw.skipper req = false)
    (hex : check req.path req.method mw.exemptRoutes = false)
    (hroute : rx.findRoute mw.router req = .ok route)
    (hval : rx.validateRequest route req = .multi me) :
    (∀ (acc : Issues) (reason : String) (cause : Option GoErr),
      (∀ errs, cause ≠ some (.multiError errs)) →
      convertOne acc (.requestError none true reason cause) =
        appendIssue acc "body" [errText (.requestError none true reason cause)]) ∧
    (∀ val, findIssues (convertError me) "body" = some val →
      middlewareRun rx mw store req =
        .jsonValidationError StatusBadRequest "Request error" val) ∧
    (findIssues (convertError me) "body" = none →
      middlewareRun rx mw store req =
        .jsonValidationError StatusUnprocessableEntity "Validation error"
          (flattenSorted (convertError me))) := by
  refine ⟨?_, fun val hfind => ?_, fun hfind => ?_⟩
  · intro acc reason cause hnm
    cases cause with
    | none => rfl
    | some c =>
      cases c with
      | schemaError p r d => rfl
      | requestError p' b' r' c' => rfl
      | multiError errs => exact absurd rfl (hnm errs)
      | otherErr t => rfl
  · simp only [middlewareRun, hskip, hex, hroute, hval, hfind,
      Bool.false_eq_true, if_false]
  · simp only [middlewareRun, hskip, hex, hroute, hval, hfind,
      Bool.false_eq_true, if_false]

/-- The 400 `body` bucket at a concrete run: the missing-body failure of
the repository's own test (`POST /validation` with an empty body) is
reported at 400 with the error's full text. -/
theorem body_bucket_400_amended_witness :
    middlewareRun rxMissingBody mwFix [] reqValidationFix =
      .jsonValidationError StatusBadRequest "Request error"
        ["request body has an error: value is required but missing"] :=
  (body_bucket_400_amended rxMissingBody mwFix [] reqValidationFix routeFix
    meMissingBody rfl rfl rfl rfl).2.1
    ["request body has an error: value is required but missing"] rfl

/-- C1 counterexample: a request whose only validation failure is a bad
body field value — the required object property is literally named `body`,
so its schema error is keyed `body` — is reported at HTTP 400, not at the
claimed 422. -/
theorem body_field_collision_counterexample :
    middlewareRun rxBodyField mwFix [] reqValidationFix =
      .jsonValidationError StatusBadRequest "Request error"
        ["body: property 'body' is missing"] ∧
    StatusBadRequest ≠ StatusUnprocessableEntity :=
  ⟨rfl, by decide⟩

/-- C4 (amended): when the converted issues contain no `body` key, the 422
response's error list is exactly the sorted-key concatenation
`flattenSorted`; when a `body` key is present, the 400 response carries
exactly that bucket; the keys of a converted multi-error are unique; and
`flattenSorted` is invariant under permutation of the issues map — the
output ordering is a deterministic function of the key-to-bucket mapping,
which Go's nondeterministic map enumeration cannot influence, so identical
invalid requests always produce identical error bodies.  (The original
claim's `final list = sorted concatenation of all buckets` fails when a
`body` bucket coexists with other keys — see the counterexample.) -/
theorem sorted_flatten_amended {Router : Type} (rx : RunExt Router)
    (mw : Middleware Router) (store : Store) (req : Request) (route : RouteInfo)
    (me : List GoErr)
    (hskip : mw.skipper req = false)
    (hex : check req.path req.method mw.exemptRoutes = false)
    (hroute : rx.findRoute mw.router req = .ok route)
    (hval : rx.validateRequest route req = .multi me) :
    (findIssues (convertError me) "body" = none →
      middlewareRun rx mw store req =
        .jsonValidationError StatusUnprocessableEntity "Validation error"
          (flattenSorted (convertError me))) ∧
    (∀ val, findIssues (convertError me) "body" = some val →
      middlewareRun rx mw store req =
        .jsonValidationError StatusBadRequest "Request error" val) ∧
    ((convertError me).map Prod.fst).Nodup ∧
    (∀ l l' : Issues, l.Perm l' → (l.map Prod.fst).Nodup →
      flattenSorted l = flattenSorted l') := by
  refine ⟨fun hfind => ?_, fun val hfind => ?_, convertError_nodup me,
    fun l l' hp hnd => flattenSorted_perm l l' hp hnd⟩
  · simp only [middlewareRun, hskip, hex, hroute, hval, hfind,
      Bool.false_eq_true, if_false]
  · simp only [middlewareRun, hskip, hex, hroute, hval, hfind,
      Bool.false_eq_true, if_false]

/-- The sorted-key concatenation at a concrete run: two parameter errors
discovered in reverse key order come back sorted by key (`path.username`
before `query.limit`), independent of discovery order. -/
theorem sorted_flatten_amended_witness :
    middlewareRun rxTwoParams mwFix [] reqValidationFix =
      .jsonValidationError StatusUnprocessableEntity "Validation error"
        ["parameter 'username' in path has an error: minimum string length is 2",
         "parameter 'limit' in query has an error: number must be at most 100"] :=
  (sorted_flatten_amended rxTwoParams mwFix [] reqValidationFix routeFix
    meTwoParams rfl rfl rfl rfl).1 rfl

/-- C4 counterexample: with a bad path parameter and a missing body in the
same raw error set, the response carries only the `body` bucket, not the
sorted concatenation of the two buckets — the final flat list differs from
the claimed sorted-key concatenation. -/
theorem sorted_flatten_counterexample :
    middlewareRun rxMixed mwFix [] reqValidationFix =
      .jsonValidationError StatusBadRequest "Request error"
        ["request body has an error: value is required but missing"] ∧
    flattenSorted (convertError meMixed) =
      ["request body has an error: value is required but missing",
       "parameter 'username' in path has an error: minimum string length is 2"] ∧
    (["request body has an error: value is required but missing"] : List String) ≠
      ["request body has an error: value is required but missing",
       "parameter 'username' in path has an error: minimum string length is 2"] :=
  ⟨rfl, rfl, by decide⟩

/-- C6: when response validation rejects the candidate body (a
`ResponseError` wrapping the multi-error produced with the handler's
always-on `MultiError` option), `validate` returns an error instead of
writing the response — the converted, structured messages live only in
that server-side error text — and what the client sees through Echo's
default error handler is HTTP 500 with the fixed message
`Internal Server Error`, which is a constant independent of the body, so
no part of the invalid body reaches the client. -/
theorem invalid_response_body_not_sent (ext : RespExt) (h : Handler)
    (store : Store) (code : Nat) (contentType : String) (v : GoVal)
    (input : RequestValidationInput) (b reason : String) (me : List GoErr)
    (hcode : code ≠ StatusNoContent)
    (hstore : storeGet store h.config.validatorKey = some (.validatorInput input))
    (hct : goHasPrefix contentType ApplicationJSON = true)
    (hmarshal : ext.jsonMarshal v = .ok b)
    (hval : ext.validateResponse input code [("Content-Type", contentType)] b
      { excludeRequestBody := h.config.excludeRequestBody,
        excludeResponseBody := h.config.excludeResponseBody,
        includeResponseStatus := h.config.includeResponseStatus,
        multiError := true } =
      some (.responseError reason (some (.multiError me)))) :
    Handler.validate ext h store code contentType v =
      .error ("failed validating response: " ++
        String.intercalate "; " (flattenSorted (convertError me))) ∧
    echoRender (Handler.validate ext h store code contentType v) =
      .errorMessage StatusInternalServerError "Internal Server Error" := by
  have hmain : Handler.validate ext h store code contentType v =
      .error ("failed validating response: " ++
        String.intercalate "; " (flattenSorted (convertError me))) := by
    unfold Handler.validate
    rw [if_neg hcode, hstore]
    simp only [hct, if_true, hmarshal, hval]
  exact ⟨hmain, by rw [hmain]; rfl⟩

/-- The suppressed invalid response at a concrete call: the repository's
own test handler returns `{"invalid": "welcome"}` against the root
response schema; the client sees 500 `Internal Server Error` and the
converted messages stay in the server-side error. -/
theorem invalid_response_body_not_sent_witness :
    Handler.validate respExtBadBody NewHandler storeWithValidator 200
      "application/json" (.otherDyn "map[invalid:welcome]") =
      .error ("failed validating response: " ++
        "invalid: property 'invalid' is unsupported") ∧
    echoRender (Handler.validate respExtBadBody NewHandler storeWithValidator 200
      "application/json" (.otherDyn "map[invalid:welcome]")) =
      .errorMessage StatusInternalServerError "Internal Server Error" :=
  invalid_response_body_not_sent respExtBadBody NewHandler storeWithValidator 200
    "application/json" (.otherDyn "map[invalid:welcome]") inputFix
    "\x7b\"invalid\":\"welcome\"\x7d" "response body doesn't match the schema"
    [.schemaError ["invalid"] "property \"invalid\" is unsupported" "rendered detail"]
    (by decide) rfl rfl rfl rfl

/-- C2: the current `OpenAPIWithConfig` does all schema processing at
construction time: if no schema source is given, or loading fails, or
document validation fails, or the route matcher cannot be built, then
construction itself fails (Go panics; no middleware value exists, so no
request is ever served); when construction succeeds, the schema was
loaded, validated and compiled into the captured router, and the
per-request behaviour is a function of that captured state alone — two
middlewares with the same captured state serve every request identically,
whatever schema sources or loader environments produced them, so no schema
loading or schema validation happens on the live request path. -/
theorem construction_time_schema_loading {Schema Router : Type}
    (bx : BuildExt Schema Router) (config : Config) :
    (((config.schema = "" ∧ config.schemaBytes = "") ∨
      (∃ e, loadSchemaSource bx config = .error e) ∨
      (∃ s e, loadSchemaSource bx config = .ok s ∧ bx.validateSchema s = some e) ∨
      (∃ s e, loadSchemaSource bx config = .ok s ∧ bx.validateSchema s = none ∧
        bx.newRouter s = .error e)) →
      ∃ msg, OpenAPIWithConfig bx config = .error msg) ∧
    (∀ mw, OpenAPIWithConfig bx config = .ok mw →
      ∃ s, loadSchemaSource bx config = .ok s ∧ bx.validateSchema s = none ∧
        bx.newRouter s = .ok mw.router) ∧
    (∀ (Schema' : Type) (bx' : BuildExt Schema' Router) (config' : Config)
        (mw mw' : Middleware Router),
      OpenAPIWithConfig bx config = .ok mw →
      OpenAPIWithConfig bx' config' = .ok mw' →
      mw.skipper = mw'.skipper → mw.contextKey = mw'.contextKey →
      mw.exemptRoutes = mw'.exemptRoutes → mw.router = mw'.router →
      ∀ (rx : RunExt Router) (store : Store) (req : Request),
        middlewareRun rx mw store req = middlewareRun rx mw' store req) := by
  refine ⟨?_, ?_, ?_⟩
  · intro hfail
    by_cases hnone : config.schema = "" ∧ config.schemaBytes = ""
    · exact ⟨"either schema or schemaBytes is required",
        by simp only [OpenAPIWithConfig, hnone, and_self, if_true]⟩
    · rcases hfail with hcase | ⟨e, he⟩ | ⟨s, e, hs, he⟩ | ⟨s, e, hs, hv, he⟩
      · exact absurd hcase hnone
      · exact ⟨"failed loading schema file: " ++ e,
          by simp only [OpenAPIWithConfig, hnone, if_false, he]⟩
      · exact ⟨"failed validating schema: " ++ e,
          by simp only [OpenAPIWithConfig, hnone, if_false, hs, he]⟩
      · exact ⟨"failed creating router: " ++ e,
          by simp only [OpenAPIWithConfig, hnone, if_false, hs, hv, he]⟩
  · intro mw hok
    by_cases hnone : config.schema = "" ∧ config.schemaBytes = ""
    · simp only [OpenAPIWithConfig, hnone, and_self, if_true] at hok
      exact Except.noConfusion hok
    · cases hs : loadSchemaSource bx config with
      | error e =>
        simp only [OpenAPIWithConfig, hnone, if_false, hs] at hok
        exact Except.noConfusion hok
      | ok s =>
        cases hv : bx.validateSchema s with
        | some e =>
          simp only [OpenAPIWithConfig, hnone, if_false, hs, hv] at hok
          exact Except.noConfusion hok
        | none =>
          cases hr : bx.newRouter s with
          | error e =>
            simp only [OpenAPIWithConfig, hnone, if_false, hs, hv, hr] at hok
            exact Except.noConfusion hok
          | ok r =>
            simp only [OpenAPIWithConfig, hnone, if_false, hs, hv, hr,
              Except.ok.injEq] at hok
            refine ⟨s, rfl, hv, ?_⟩
            rw [← hok]
            exact hr
  · intro Schema' bx' config' mw mw' _ _ h1 h2 h3 h4 rx store req
    have : mw = mw' := by
      cases mw
      cases mw'
      simp only at h1 h2 h3 h4
      rw [h1, h2, h3, h4]
    rw [this]

/-- Construction-time failure and captured-state serving at concrete
environments: a loader that cannot read the schema file makes construction
fail, and two successful constructions from different sources serve a
request identically. -/
theorem construction_time_schema_loading_witness :
    (∃ msg, OpenAPIWithConfig bxLoadFails { DefaultConfig with schema := "/invalid/path" } =
      .error msg) ∧
    middlewareRun rxMissingBody
      ((OpenAPIWithConfig bxOk { DefaultConfig with schema := "./fixtures/openapi.yaml" }).toOption.getD mwFix)
      [] reqValidationFix =
    middlewareRun rxMissingBody
      ((OpenAPIWithConfig bxOk { DefaultConfig with schemaBytes := "openapi: 3.0.4" }).toOption.getD mwFix)
      [] reqValidationFix :=
  ⟨(construction_time_schema_loading bxLoadFails
      { DefaultConfig with schema := "/invalid/path" }).1
      (Or.inr (Or.inl ⟨"open /invalid/path: no such file or directory", rfl⟩)),
   (construction_time_schema_loading bxOk
      { DefaultConfig with schema := "./fixtures/openapi.yaml" }).2.2
      String bxOk { DefaultConfig with schemaBytes := "openapi: 3.0.4" } _ _ rfl rfl
      rfl rfl rfl rfl rxMissingBody [] reqValidationFix⟩

end EchoOpenAPI
